import Mathlib

set_option maxRecDepth 16000

/-!
Verification of the target-kinesis streaming loader core
(src/target_kinesis/target.py, kinesis.py, firehose.py).

The development shallowly embeds the line-protocol state machine of
persist_lines together with the metadata enrichment and stripping
functions, the schema registration, the flush decision and the two
delivery sinks.  JSON values are modeled by the inductive JVal; Python
dicts are association lists with string keys (json.loads always produces
string keys) carrying the CPython semantics: assignment replaces the
value in place when the key exists and appends at the end otherwise,
pop removes the entry.  The registries keyed by the stream value use a
structural equality jeq, which agrees with Python equality on every
hashable JSON value (the only values usable as dict keys).

Modeling boundaries, stated once here:
 - json.loads and json.dumps are the external decode and encode
   primitives; lines enter the model already decoded, and the emitted
   checkpoint is observed as a value rather than as serialized text.
 - datetime.now is abstracted into a PyTimestamp parameter holding the
   two projections the code uses: the normalized ISO string and the
   epoch milliseconds.  persist_lines computes the timestamp once
   before the loop, so the model passes one fixed PyTimestamp per run.
 - Python str of a value (used for the size estimate) is modeled for
   strings that contain no quote, backslash or control characters; the
   numbers of the modeled domain are integers, hence float_to_decimal
   is the identity traversal.
 - the boto3 client calls are external; the sink functions keep their
   in-repository checks and the batch each flush hands over is recorded
   in a delivered trace.
-/

namespace TargetKinesis

/-- JSON values as produced by json.loads: None, booleans, integers,
strings, arrays and objects with string keys. -/
inductive JVal where
  | null
  | bool (b : Bool)
  | int (n : Int)
  | str (s : String)
  | arr (elems : List JVal)
  | obj (entries : List (String × JVal))

/-- Python dict lookup d.get(k) on a string-keyed dict. -/
def lookupStr : List (String × JVal) → String → Option JVal
  | [], _ => none
  | (k, v) :: tl, key => if k = key then some v else lookupStr tl key

/-- Python dict assignment d[k] = v: replaces the value in place when the
key is present, appends the new entry at the end otherwise. -/
def setKey : List (String × JVal) → String → JVal → List (String × JVal)
  | [], k, v => [(k, v)]
  | (k0, v0) :: tl, k, v =>
      if k0 = k then (k, v) :: tl else (k0, v0) :: setKey tl k v

/-- Python dict d.pop(k, None): removes the entry with key k when present. -/
def popKey : List (String × JVal) → String → List (String × JVal)
  | [], _ => []
  | (k0, v0) :: tl, k => if k0 = k then tl else (k0, v0) :: popKey tl k

-- Structural equality of JSON values, the equality Python applies to the
-- hashable values used as dict keys.
mutual
def jeq : JVal → JVal → Bool
  | .null, .null => true
  | .bool a, .bool b => a == b
  | .int a, .int b => a == b
  | .str a, .str b => a == b
  | .arr a, .arr b => jeqElems a b
  | .obj a, .obj b => jeqEntries a b
  | _, _ => false

def jeqElems : List JVal → List JVal → Bool
  | [], [] => true
  | a :: as_, b :: bs => jeq a b && jeqElems as_ bs
  | _, _ => false

def jeqEntries : List (String × JVal) → List (String × JVal) → Bool
  | [], [] => true
  | (ka, va) :: as_, (kb, vb) :: bs => ka == kb && jeq va vb && jeqEntries as_ bs
  | _, _ => false
end

/-- Lookup in a dict keyed by JSON values (the per-stream registries). -/
def lookupJ {α : Type} : List (JVal × α) → JVal → Option α
  | [], _ => none
  | (k, v) :: tl, key => if jeq k key then some v else lookupJ tl key

/-- Assignment in a dict keyed by JSON values. -/
def setKeyJ {α : Type} : List (JVal × α) → JVal → α → List (JVal × α)
  | [], k, v => [(k, v)]
  | (k0, v0) :: tl, k, v =>
      if jeq k0 k then (k, v) :: tl else (k0, v0) :: setKeyJ tl k v

/-- The single-quote character, used by the Python repr of strings. -/
def pyQuote : String := String.singleton (Char.ofNat 39)

-- Python str/repr of the modeled values, as evaluated by str(RECORDS) in
-- persist_lines line 197: None, True and False, decimal integers, strings
-- in single quotes, bracketed comma-separated arrays, braced dicts.
mutual
def pyRepr : JVal → String
  | .null => "None"
  | .bool b => if b then "True" else "False"
  | .int n => toString n
  | .str s => pyQuote ++ s ++ pyQuote
  | .arr xs => "[" ++ pyReprElems xs ++ "]"
  | .obj kvs => "\x7b" ++ pyReprEntries kvs ++ "\x7d"

def pyReprElems : List JVal → String
  | [] => ""
  | [v] => pyRepr v
  | v :: vs => pyRepr v ++ ", " ++ pyReprElems vs

def pyReprEntries : List (String × JVal) → String
  | [] => ""
  | [(k, v)] => pyQuote ++ k ++ pyQuote ++ ": " ++ pyRepr v
  | (k, v) :: kvs =>
      pyQuote ++ k ++ pyQuote ++ ": " ++ pyRepr v ++ ", " ++ pyReprEntries kvs
end

/-- Python str of the RECORDS list (a list of buffered records). -/
def pyStrList (records : List JVal) : String := "[" ++ pyReprElems records ++ "]"

/-- The length of str(RECORDS): the approximate size measure that the flush
decision of persist_lines (lines 193-197) compares against data_chunks + 3. -/
def batch_size_estimate (records : List JVal) : Nat := (pyStrList records).length

/-- DEFAULT_RECORD_CHUNKS from target.py line 20. -/
def DEFAULT_RECORD_CHUNKS : Int := 10

/-- DEFAULT_DATA_CHUNKS from target.py line 21. -/
def DEFAULT_DATA_CHUNKS : Int := 1000

/-- The two projections of the run timestamp that the code uses: the
normalized ISO string of astimezone(utc).replace(tzinfo=None).isoformat()
and the millisecond count int(timestamp.timestamp() * 1e3). -/
structure PyTimestamp where
  isoUtc : String
  epochMs : Int

/-- The configuration dict, restricted to the keys the core reads.
add_metadata_columns and is_firehose stand for the truthiness of
config.get; the optional fields are none when the key is absent. -/
structure Config where
  add_metadata_columns : Bool := false
  record_chunks : Option Int := none
  data_chunks : Option Int := none
  is_firehose : Bool := false
  stream_name : Option String := none
  partition_key : Option String := none

/-- The exceptions the core raises.  Python raises plain Exception with a
message text (and KeyError, AttributeError, TypeError for dict and
attribute misuse); the constructors name the raising condition. -/
inductive Err where
  | missingType
  | missingStream
  | unknownStream
  | missingKeyProperties
  | unknownMessageType
  | keyError (k : String)
  | attributeError
  | typeError
  | emptyRecordList

/-- Draft4Validator(schema): the validator object jsonschema builds from a
schema; the model keeps the schema it was built from. -/
structure Draft4Validator where
  schema : JVal

/-- float_to_decimal from target.py lines 85-92: converts floats to
Decimal, recursing through lists and dicts.  The modeled value domain has
integer numbers only, on which the traversal returns an equal value. -/
def float_to_decimal (value : JVal) : JVal := value

/-- The seven _sdc metadata column schemas that
add_metadata_columns_to_schema (target.py lines 27-41) adds to the
property set, in the order the keyword arguments are written. -/
def sdcColumnSchemas : List (String × JVal) :=
  [("_sdc_batched_at",
      .obj [("type", .arr [.str "null", .str "string"]),
            ("format", .str "date-time")]),
   ("_sdc_deleted_at", .obj [("type", .arr [.str "null", .str "string"])]),
   ("_sdc_extracted_at",
      .obj [("type", .arr [.str "null", .str "string"]),
            ("format", .str "date-time")]),
   ("_sdc_primary_key", .obj [("type", .arr [.str "null", .str "string"])]),
   ("_sdc_received_at",
      .obj [("type", .arr [.str "null", .str "string"]),
            ("format", .str "date-time")]),
   ("_sdc_sequence", .obj [("type", .arr [.str "integer"])]),
   ("_sdc_table_version", .obj [("type", .arr [.str "null", .str "string"])])]

/-- The seven _sdc bookkeeping keys. -/
def sdcKeyList : List String :=
  ["_sdc_batched_at", "_sdc_deleted_at", "_sdc_extracted_at",
   "_sdc_primary_key", "_sdc_received_at", "_sdc_sequence",
   "_sdc_table_version"]

/-- add_metadata_columns_to_schema from target.py lines 27-41: updates
schema_message schema properties with the seven _sdc column schemas, in
place, and returns the schema message.  Raises KeyError when the schema
or its properties entry is absent and a type error when either is not a
dict. -/
def add_metadata_columns_to_schema (schema_message : List (String × JVal)) :
    Except Err (List (String × JVal)) :=
  match lookupStr schema_message "schema" with
  | some (.obj sch) =>
      match lookupStr sch "properties" with
      | some (.obj props) =>
          let props2 := sdcColumnSchemas.foldl (fun d p => setKey d p.1 p.2) props
          .ok (setKey schema_message "schema" (.obj (setKey sch "properties" (.obj props2))))
      | some _ => .error .attributeError
      | none => .error (.keyError "properties")
  | some _ => .error .typeError
  | none => .error (.keyError "schema")

/-- add_metadata_values_to_record from target.py lines 44-57: updates the
record of the record message with the seven _sdc values and returns the
updated record.  All keyword argument values are evaluated from the
original record before the update is applied; the updates land in the
written keyword order.  utcnow is the normalized ISO string of the
timestamp and the sequence is its millisecond count.  Raises KeyError
when the message has no record and an attribute error when the record is
not a dict. -/
def add_metadata_values_to_record (record_message schema_message : List (String × JVal))
    (timestamp : PyTimestamp) : Except Err (List (String × JVal)) :=
  match lookupStr record_message "record" with
  | some (.obj r) =>
      let utcnow := JVal.str timestamp.isoUtc
      let vDeleted := (lookupStr r "_sdc_deleted_at").getD .null
      let vExtracted := (lookupStr record_message "time_extracted").getD .null
      let vPrimaryKey := (lookupStr schema_message "key_properties").getD .null
      let vVersion := (lookupStr record_message "version").getD .null
      .ok (setKey (setKey (setKey (setKey (setKey (setKey (setKey r
            "_sdc_batched_at" utcnow)
            "_sdc_deleted_at" vDeleted)
            "_sdc_extracted_at" vExtracted)
            "_sdc_primary_key" vPrimaryKey)
            "_sdc_received_at" utcnow)
            "_sdc_sequence" (.int timestamp.epochMs))
            "_sdc_table_version" vVersion)
  | some _ => .error .attributeError
  | none => .error (.keyError "record")

/-- remove_metadata_values_from_record from target.py lines 60-74: pops
every _sdc key from the record of the record message and returns the
record.  The source iterates a set literal whose order is unspecified;
the pops commute, and the model applies them in the written order. -/
def remove_metadata_values_from_record (record_message : List (String × JVal)) :
    Except Err (List (String × JVal)) :=
  match lookupStr record_message "record" with
  | some (.obj r) =>
      .ok (sdcKeyList.foldl (fun d k => popKey d k) r)
  | some _ => .error .attributeError
  | none => .error (.keyError "record")

/-- validate_record from target.py lines 210-213: the body is pass, the
commented-out validation is never run. -/
def validate_record (_stream : JVal) (_record : JVal)
    (_schemas : List (JVal × JVal)) (_validators : List (JVal × Draft4Validator)) : Unit := ()

/-- handle_record from target.py lines 111-126: requires the stream key,
requires a previously registered schema for the stream, evaluates the
record entry (for the validate_record call, whose body is pass), then
either enriches the record with the metadata values - passing the empty
dict as the schema message - or strips them, tags the result with the
stream name and returns the record to be buffered. -/
def handle_record (o : List (String × JVal)) (schemas : List (JVal × JVal))
    (config : Config) (now : PyTimestamp) : Except Err JVal :=
  match lookupStr o "stream" with
  | none => .error .missingStream
  | some sv =>
      match lookupJ schemas sv with
      | none => .error .unknownStream
      | some _ =>
          match lookupStr o "record" with
          | none => .error (.keyError "record")
          | some _ =>
              match (if config.add_metadata_columns then
                       add_metadata_values_to_record o [] now
                     else
                       remove_metadata_values_from_record o) with
              | .error e => .error e
              | .ok r2 => .ok (.obj (setKey r2 "stream" sv))

/-- handle_state from target.py lines 129-131: returns the value entry of
the state message; raises KeyError when it is absent. -/
def handle_state (o : List (String × JVal)) : Except Err JVal :=
  match lookupStr o "value" with
  | some v => .ok v
  | none => .error (.keyError "value")

/-- handle_schema from target.py lines 134-152: requires the stream key;
when add_metadata_columns is configured it augments the schema of the
message in place with the metadata columns and stores the whole message,
otherwise it stores the decimal-converted schema; then it overwrites the
stored entry with the schema of the (possibly mutated) message, builds
the validator from that same schema, and only then checks
key_properties, raising after the schema and validator were already
stored.  The returned triple carries every mutation performed before the
error. -/
def handle_schema (o : List (String × JVal)) (schemas : List (JVal × JVal))
    (validators : List (JVal × Draft4Validator)) (key_properties : List (JVal × JVal))
    (config : Config) :
    (List (JVal × JVal) × List (JVal × Draft4Validator) × List (JVal × JVal)) × Option Err :=
  match lookupStr o "stream" with
  | none => ((schemas, validators, key_properties), some .missingStream)
  | some stream =>
      let firstStore : Except Err ((List (String × JVal)) × JVal) :=
        if config.add_metadata_columns then
          match add_metadata_columns_to_schema o with
          | .error e => .error e
          | .ok o2 => .ok (o2, .obj o2)
        else
          match lookupStr o "schema" with
          | none => .error (.keyError "schema")
          | some sch => .ok (o, float_to_decimal sch)
      match firstStore with
      | .error e => ((schemas, validators, key_properties), some e)
      | .ok (o2, stored1) =>
          let schemas1 := setKeyJ schemas stream stored1
          match lookupStr o2 "schema" with
          | none => ((schemas1, validators, key_properties), some (.keyError "schema"))
          | some sch2 =>
              let schemas2 := setKeyJ schemas1 stream sch2
              let validators2 := setKeyJ validators stream ⟨sch2⟩
              match lookupStr o2 "key_properties" with
              | none => ((schemas2, validators2, key_properties), some .missingKeyProperties)
              | some kp =>
                  ((schemas2, validators2, setKeyJ key_properties stream kp), none)

/-- kinesis_deliver from kinesis.py lines 9-25: rejects an empty record
list, reads the partition key from the first record (KeyError when
absent, type error when the first record is not a dict), and hands the
encoded batch to the external client. -/
def kinesis_deliver (_stream_name : String) (partition_key : String)
    (records : List JVal) : Except Err Unit :=
  match records with
  | [] => .error .emptyRecordList
  | r :: _ =>
      match r with
      | .obj d =>
          match lookupStr d partition_key with
          | some _ => .ok ()
          | none => .error (.keyError partition_key)
      | _ => .error .typeError

/-- firehose_deliver from firehose.py lines 9-24: rejects an empty record
list and hands the encoded batch to the external client. -/
def firehose_deliver (_stream_name : String) (records : List JVal) : Except Err Unit :=
  match records with
  | [] => .error .emptyRecordList
  | _ :: _ => .ok ()

/-- deliver_records from target.py lines 220-230: selects the sink by the
is_firehose flag, with stream name defaulting to missing-stream-name and
partition key defaulting to id. -/
def deliver_records (config : Config) (records : List JVal) : Except Err Unit :=
  if config.is_firehose then
    firehose_deliver (config.stream_name.getD "missing-stream-name") records
  else
    kinesis_deliver (config.stream_name.getD "missing-stream-name")
      (config.partition_key.getD "id") records

/-- The loop state of persist_lines: the RECORDS buffer, the tracked
checkpoint, the three per-stream registries, and the trace of batches
handed to deliver_records (the observable flush history). -/
structure LoopState where
  records : List JVal
  state : Option JVal
  schemas : List (JVal × JVal)
  validators : List (JVal × Draft4Validator)
  key_properties : List (JVal × JVal)
  delivered : List (List JVal)

/-- The initial loop state of persist_lines lines 157-163. -/
def initState : LoopState :=
  { records := [], state := none, schemas := [], validators := [],
    key_properties := [], delivered := [] }

/-- The flush decision at the end of each loop iteration, target.py lines
191-201: re-reads the thresholds from the configuration, flushes when the
buffered count strictly exceeds record_chunks or when the length of
str(RECORDS) strictly exceeds data_chunks + 3, delivering the batch and
clearing the buffer; a delivery failure halts the run. -/
def flushCheck (config : Config) (s : LoopState) : LoopState × Option Err :=
  let record_chunks := config.record_chunks.getD DEFAULT_RECORD_CHUNKS
  let data_chunks := config.data_chunks.getD DEFAULT_DATA_CHUNKS
  let enough_records := decide ((s.records.length : Int) > record_chunks)
  let enough_data := decide (((pyStrList s.records).length : Int) > data_chunks + 3)
  if enough_records || enough_data then
    match deliver_records config s.records with
    | .error e => (s, some e)
    | .ok _ => ({ s with records := [], delivered := s.delivered ++ [s.records] }, none)
  else (s, none)

/-- One iteration of the persist_lines loop, target.py lines 170-201: the
line arrives already decoded (json.loads is the external decoder), the
type tag is required, the message is dispatched by type - a processed
record is appended to the buffer and clears the tracked state, a state
message replaces it, a schema message updates the registries - and the
flush decision runs after every successfully dispatched message.  An
exception halts the iteration, keeping every mutation made before it. -/
def step (config : Config) (now : PyTimestamp) (s : LoopState) (line : JVal) :
    LoopState × Option Err :=
  match line with
  | .obj o =>
      match lookupStr o "type" with
      | none => (s, some .missingType)
      | some (.str "RECORD") =>
          match handle_record o s.schemas config now with
          | .error e => (s, some e)
          | .ok rec =>
              flushCheck config { s with records := s.records ++ [rec], state := none }
      | some (.str "STATE") =>
          match handle_state o with
          | .error e => (s, some e)
          | .ok v => flushCheck config { s with state := some v }
      | some (.str "SCHEMA") =>
          match handle_schema o s.schemas s.validators s.key_properties config with
          | ((sch, val, kp), some e) =>
              ({ s with schemas := sch, validators := val, key_properties := kp }, some e)
          | ((sch, val, kp), none) =>
              flushCheck config { s with schemas := sch, validators := val, key_properties := kp }
      | some _ => (s, some .unknownMessageType)
  | _ => (s, some .typeError)

/-- The persist_lines loop over the decoded input lines: processes one
line at a time and halts at the first exception, returning the state
reached at the halt. -/
def runLines (config : Config) (now : PyTimestamp) :
    LoopState → List JVal → LoopState × Option Err
  | s, [] => (s, none)
  | s, l :: ls =>
      match step config now s l with
      | (s2, none) => runLines config now s2 ls
      | (s2, some e) => (s2, some e)

/-- persist_lines including the end-of-input forced flush of target.py
lines 203-205: after the loop, a non-empty buffer is delivered regardless
of the thresholds. -/
def processAll (config : Config) (now : PyTimestamp) (lines : List JVal) :
    LoopState × Option Err :=
  match runLines config now initState lines with
  | (s, some e) => (s, some e)
  | (s, none) =>
      if s.records.length > 0 then
        match deliver_records config s.records with
        | .error e => (s, some e)
        | .ok _ => ({ s with delivered := s.delivered ++ [s.records] }, none)
      else (s, none)

/-- persist_lines from target.py lines 155-207: the returned checkpoint of
a completed run, or the exception that halted it. -/
def persist_lines (config : Config) (now : PyTimestamp) (lines : List JVal) :
    Except Err (Option JVal) :=
  match processAll config now lines with
  | (_, some e) => .error e
  | (s, none) => .ok s.state

/-- emit_state from target.py lines 77-82: writes one serialized line when
the state is not None and writes nothing otherwise; the model observes
the emitted value. -/
def emit_state (state : Option JVal) : Option JVal :=
  match state with
  | some v => some v
  | none => none

/-- main from target.py lines 242-253: runs persist_lines and emits the
returned state; an exception propagates and nothing is emitted. -/
def main_emitted (config : Config) (now : PyTimestamp) (lines : List JVal) : Option JVal :=
  match persist_lines config now lines with
  | .error _ => none
  | .ok st => emit_state st

/-! Concrete protocol inputs used by the claim instances. -/

/-- A fixed run timestamp (the two projections the code reads). -/
def tsW : PyTimestamp := ⟨"2024-01-01T00:00:00", 1704067200000⟩

/-- A SCHEMA line registering the stream users with key property id. -/
def usersSchemaLine : JVal :=
  .obj [("type", .str "SCHEMA"), ("stream", .str "users"),
        ("schema", .obj [("properties", .obj [("id", .obj [("type", .str "integer")])])]),
        ("key_properties", .arr [.str "id"])]

/-- A RECORD line for the stream users whose record is the single field id. -/
def userRecordLine (i : Int) : JVal :=
  .obj [("type", .str "RECORD"), ("stream", .str "users"),
        ("record", .obj [("id", .int i)])]

/-- A STATE line carrying the checkpoint value v. -/
def stateLine (v : JVal) : JVal :=
  .obj [("type", .str "STATE"), ("value", v)]

/-- A RECORD line for the never-registered stream orders. -/
def ordersRecordLine : JVal :=
  .obj [("type", .str "RECORD"), ("stream", .str "orders"), ("record", .obj [])]

/-- The record of userRecordLine i as it is buffered on the strip path:
the seven absent _sdc keys are popped and the stream tag is appended. -/
def bufferedUserRecord (i : Int) : JVal :=
  .obj [("id", .int i), ("stream", .str "users")]

/-- A configuration with max record count 10 (also the default) and all
other keys absent. -/
def cfg10 : Config := { record_chunks := some 10 }

/-- A configuration with max size estimate 27 and all other keys absent. -/
def cfg27 : Config := { data_chunks := some 27 }

/-- A configuration enabling the metadata columns. -/
def cfgMeta : Config := { add_metadata_columns := true }

/-- The configuration dict with every key absent. -/
def cfgDefault : Config := {}

/-- A RECORD message dict whose record has two plain fields, used to
instantiate the enrich-strip round trip. -/
def c4Message : List (String × JVal) :=
  [("type", .str "RECORD"), ("stream", .str "users"),
   ("record", .obj [("id", .int 1), ("name", .str "ada")]),
   ("version", .int 2)]

/-- The record carried by c4Message. -/
def c4Record : List (String × JVal) := [("id", .int 1), ("name", .str "ada")]

/-- The SCHEMA message dict of usersSchemaLine. -/
def c5Message : List (String × JVal) :=
  [("type", .str "SCHEMA"), ("stream", .str "users"),
   ("schema", .obj [("properties", .obj [("id", .obj [("type", .str "integer")])])]),
   ("key_properties", .arr [.str "id"])]

/-- A SCHEMA message dict that lacks the key_properties field. -/
def c9Message : List (String × JVal) :=
  [("type", .str "SCHEMA"), ("stream", .str "users"),
   ("schema", .obj [("properties", .obj [("id", .obj [("type", .str "integer")])])])]

/-- The schema dict carried by c5Message and c9Message. -/
def c5SchemaDict : List (String × JVal) :=
  [("properties", .obj [("id", .obj [("type", .str "integer")])])]

/-- The property set of c5SchemaDict. -/
def c5PropsDict : List (String × JVal) := [("id", .obj [("type", .str "integer")])]

/-! Observation helpers for the temporal claims. -/

/-- The type tag of a decoded line, when the line is a dict. -/
def lineTypeOf (line : JVal) : Option JVal :=
  match line with
  | .obj o => lookupStr o "type"
  | _ => none

/-- A line whose type tag is RECORD. -/
def isRecordLine (line : JVal) : Prop := lineTypeOf line = some (.str "RECORD")

/-- The checkpoint value a STATE line carries. -/
def stateValueOf (line : JVal) : Option JVal :=
  match line with
  | .obj o =>
      match lookupStr o "type" with
      | some (.str "STATE") => lookupStr o "value"
      | _ => none
  | _ => none

/-- The checkpoint tracking of the persist_lines loop in isolation: a
record line clears the tracked state, a state line replaces it with its
value entry, every other line leaves it unchanged. -/
def chkStep (st : Option JVal) (line : JVal) : Option JVal :=
  match line with
  | .obj o =>
      match lookupStr o "type" with
      | some (.str "RECORD") => none
      | some (.str "STATE") => lookupStr o "value"
      | _ => st
  | _ => st

/-- chkStep folded over a line sequence. -/
def chkList (st : Option JVal) : List JVal → Option JVal
  | [] => st
  | l :: ls => chkList (chkStep st l) ls

/-- A record carrying the three run-level enrichment stamps of the given
timestamp: batched-at and received-at equal to its normalized ISO string
and the sequence equal to its millisecond count. -/
def stamped (ts : PyTimestamp) (r : JVal) : Prop :=
  ∃ d, r = .obj d ∧
    lookupStr d "_sdc_batched_at" = some (.str ts.isoUtc) ∧
    lookupStr d "_sdc_received_at" = some (.str ts.isoUtc) ∧
    lookupStr d "_sdc_sequence" = some (.int ts.epochMs)

/-- Every buffered record and every record of every delivered batch
carries the run stamps. -/
def allStamped (ts : PyTimestamp) (s : LoopState) : Prop :=
  (∀ r ∈ s.records, stamped ts r) ∧ (∀ b ∈ s.delivered, ∀ r ∈ b, stamped ts r)

/-! Association list lemmas: the Python dict operations. -/

theorem lookupStr_setKey_self (d : List (String × JVal)) (k : String) (v : JVal) :
    lookupStr (setKey d k v) k = some v := by
  induction d with
  | nil => simp [setKey, lookupStr]
  | cons hd tl ih =>
      obtain ⟨k0, v0⟩ := hd
      by_cases hk : k0 = k
      · simp [setKey, hk, lookupStr]
      · simp [setKey, hk, lookupStr, ih]

theorem lookupStr_setKey_ne (d : List (String × JVal)) (k k2 : String) (v : JVal)
    (h : k2 ≠ k) : lookupStr (setKey d k2 v) k = lookupStr d k := by
  induction d with
  | nil => simp [setKey, lookupStr, h]
  | cons hd tl ih =>
      obtain ⟨k0, v0⟩ := hd
      by_cases hk : k0 = k2
      · subst hk
        simp [setKey, lookupStr, h]
      · simp [setKey, hk, lookupStr, ih]

theorem setKey_of_lookup_none (d : List (String × JVal)) (k : String) (v : JVal)
    (h : lookupStr d k = none) : setKey d k v = d ++ [(k, v)] := by
  induction d with
  | nil => simp [setKey]
  | cons hd tl ih =>
      obtain ⟨k0, v0⟩ := hd
      by_cases hk : k0 = k
      · simp [lookupStr, hk] at h
      · simp [lookupStr, hk] at h
        simp [setKey, hk, ih h]

theorem popKey_append_of_lookup_none (d e : List (String × JVal)) (k : String)
    (h : lookupStr d k = none) : popKey (d ++ e) k = d ++ popKey e k := by
  induction d with
  | nil => simp
  | cons hd tl ih =>
      obtain ⟨k0, v0⟩ := hd
      by_cases hk : k0 = k
      · simp [lookupStr, hk] at h
      · simp [lookupStr, hk] at h
        simp [popKey, hk, ih h]

/-! Python str lemmas for the size estimate. -/

theorem length_pyReprElems_append (b : List JVal) (r : JVal) (hb : b ≠ []) :
    (pyReprElems (b ++ [r])).length = (pyReprElems b).length + 2 + (pyRepr r).length := by
  induction b with
  | nil => exact absurd rfl hb
  | cons x t ih =>
      cases t with
      | nil =>
          show (pyRepr x ++ ", " ++ pyRepr r).length =
            (pyRepr x).length + 2 + (pyRepr r).length
          simp [String.length_append]
          rfl
      | cons y t2 =>
          have ih2 : (pyReprElems (y :: (t2 ++ [r]))).length =
              (pyReprElems (y :: t2)).length + 2 + (pyRepr r).length := ih (by simp)
          show (pyRepr x ++ ", " ++ pyReprElems (y :: (t2 ++ [r]))).length =
            (pyRepr x ++ ", " ++ pyReprElems (y :: t2)).length + 2 + (pyRepr r).length
          simp [String.length_append, ih2]
          omega


theorem lookupStr_append_of_none (d e : List (String × JVal)) (k : String)
    (h : lookupStr d k = none) : lookupStr (d ++ e) k = lookupStr e k := by
  induction d with
  | nil => rfl
  | cons hd tl ih =>
      obtain ⟨k0, v0⟩ := hd
      by_cases hk : k0 = k
      · simp [lookupStr, hk] at h
      · simp [lookupStr, hk] at h ⊢
        exact ih h

theorem jeq_str_self (s : String) : jeq (.str s) (.str s) = true := by
  show (s == s) = true
  simp

theorem lookupJ_setKeyJ_self {α : Type} (m : List (JVal × α)) (k : JVal) (v : α)
    (hk : jeq k k = true) : lookupJ (setKeyJ m k v) k = some v := by
  induction m with
  | nil => simp [setKeyJ, lookupJ, hk]
  | cons hd tl ih =>
      obtain ⟨k0, v0⟩ := hd
      by_cases h0 : jeq k0 k = true
      · simp [setKeyJ, h0, lookupJ, hk]
      · simp [setKeyJ, h0, lookupJ, ih]

theorem foldl_setKey_append (kvs d : List (String × JVal))
    (h : ∀ p ∈ kvs, lookupStr d p.1 = none) (hnd : (kvs.map Prod.fst).Nodup) :
    kvs.foldl (fun d2 p => setKey d2 p.1 p.2) d = d ++ kvs := by
  induction kvs generalizing d with
  | nil => simp
  | cons p rest ih =>
      simp only [List.foldl]
      rw [setKey_of_lookup_none d p.1 p.2 (h p (List.mem_cons_self p rest))]
      have hnd2 : (rest.map Prod.fst).Nodup := (List.nodup_cons.mp hnd).2
      have hp1 : p.1 ∉ rest.map Prod.fst := (List.nodup_cons.mp hnd).1
      have h2 : ∀ q ∈ rest, lookupStr (d ++ [(p.1, p.2)]) q.1 = none := by
        intro q hq
        rw [lookupStr_append_of_none d _ q.1 (h q (List.mem_cons_of_mem p hq))]
        have hne : p.1 ≠ q.1 := by
          intro he
          exact hp1 (he ▸ List.mem_map_of_mem Prod.fst hq)
        simp [lookupStr, hne]
      rw [ih _ h2 hnd2]
      simp

theorem foldl_popKey_append (ks : List String) (d e : List (String × JVal))
    (h : ∀ k ∈ ks, lookupStr d k = none) :
    ks.foldl (fun d2 k => popKey d2 k) (d ++ e) = d ++ ks.foldl (fun d2 k => popKey d2 k) e := by
  induction ks generalizing e with
  | nil => rfl
  | cons k rest ih =>
      simp only [List.foldl]
      rw [popKey_append_of_lookup_none d e k (h k (List.mem_cons_self k rest))]
      exact ih _ (fun q hq => h q (List.mem_cons_of_mem k hq))

theorem lookupStr_foldl_setKey_not_mem (kvs : List (String × JVal))
    (d : List (String × JVal)) (k : String) (h : k ∉ kvs.map Prod.fst) :
    lookupStr (kvs.foldl (fun d2 p => setKey d2 p.1 p.2) d) k = lookupStr d k := by
  induction kvs generalizing d with
  | nil => rfl
  | cons p rest ih =>
      simp only [List.map, List.mem_cons, not_or] at h
      simp only [List.foldl]
      rw [ih _ h.2, lookupStr_setKey_ne _ _ _ _ (Ne.symm h.1)]

theorem lookupStr_foldl_setKey_mem (kvs : List (String × JVal))
    (d : List (String × JVal)) (k : String) (v : JVal)
    (hnd : (kvs.map Prod.fst).Nodup) (hmem : (k, v) ∈ kvs) :
    lookupStr (kvs.foldl (fun d2 p => setKey d2 p.1 p.2) d) k = some v := by
  induction kvs generalizing d with
  | nil => cases hmem
  | cons p rest ih =>
      obtain ⟨p1, p2⟩ := p
      rcases List.mem_cons.mp hmem with he | hm
      · injection he with hk hv
        subst hk
        subst hv
        have hnotin : k ∉ rest.map Prod.fst := by
          rw [List.map_cons] at hnd
          exact (List.nodup_cons.mp hnd).1
        simp only [List.foldl]
        rw [lookupStr_foldl_setKey_not_mem rest _ k hnotin, lookupStr_setKey_self]
      · simp only [List.foldl]
        refine ih _ ?_ hm
        rw [List.map_cons] at hnd
        exact (List.nodup_cons.mp hnd).2

theorem flushCheck_fst_cases (config : Config) (s : LoopState) :
    (flushCheck config s).1 = s ∨
    (flushCheck config s).1 = { s with records := [], delivered := s.delivered ++ [s.records] } := by
  simp only [flushCheck]
  split
  · split
    · exact Or.inl rfl
    · exact Or.inr rfl
  · exact Or.inl rfl

theorem flushCheck_fst_state (config : Config) (s : LoopState) :
    (flushCheck config s).1.state = s.state := by
  rcases flushCheck_fst_cases config s with h | h <;> rw [h]

theorem step_state_chk (config : Config) (now : PyTimestamp) (s s2 : LoopState) (l : JVal)
    (h : step config now s l = (s2, none)) : s2.state = chkStep s.state l := by
  unfold step at h
  split at h
  · -- line is a dict
    rename_i o
    split at h
    · simp at h
    · -- RECORD
      rename_i heqt
      split at h
      · simp at h
      · rename_i rec heqr
        have h1 := congrArg Prod.fst h
        simp only at h1
        simp only [chkStep, heqt]
        rw [← h1, flushCheck_fst_state]
    · -- STATE
      rename_i heqt
      split at h
      · simp at h
      · rename_i v heqs
        have hval : lookupStr o "value" = some v := by
          unfold handle_state at heqs
          split at heqs
          · rename_i v0 heq2
            injection heqs with hv
            rw [heq2, hv]
          · simp at heqs
        have h1 := congrArg Prod.fst h
        simp only at h1
        simp only [chkStep, heqt]
        rw [← h1, flushCheck_fst_state, hval]
    · -- SCHEMA
      rename_i heqt
      split at h
      · simp at h
      · have h1 := congrArg Prod.fst h
        simp only at h1
        simp only [chkStep, heqt]
        rw [← h1, flushCheck_fst_state]
        rfl
    · -- unknown type
      simp at h
  · simp at h

theorem runLines_state_chkList (config : Config) (now : PyTimestamp) :
    ∀ (lines : List JVal) (s s2 : LoopState),
      runLines config now s lines = (s2, none) → s2.state = chkList s.state lines := by
  intro lines
  induction lines with
  | nil =>
      intro s s2 h
      simp only [runLines] at h
      injection h with h1 _
      rw [← h1]
      rfl
  | cons l ls ih =>
      intro s s2 h
      simp only [runLines] at h
      split at h
      · rename_i s3 hstep
        have hst := step_state_chk config now s s3 l hstep
        rw [show chkList s.state (l :: ls) = chkList (chkStep s.state l) ls from rfl, ← hst]
        exact ih s3 s2 h
      · simp at h

theorem mem_cons_not_record {l : JVal} {ls : List JVal}
    (h1 : ¬ isRecordLine l) (h2 : ∀ x ∈ ls, ¬ isRecordLine x) :
    ∀ x ∈ l :: ls, ¬ isRecordLine x := by
  intro x hx
  rcases List.mem_cons.mp hx with h | h
  · rw [h]
    exact h1
  · exact h2 x h

theorem chkList_some :
    ∀ (lines : List JVal) (st : Option JVal) (v : JVal), chkList st lines = some v →
      (∃ pre l post, lines = pre ++ l :: post ∧ stateValueOf l = some v ∧
        ∀ l2 ∈ post, ¬ isRecordLine l2) ∨
      (st = some v ∧ ∀ l2 ∈ lines, ¬ isRecordLine l2) := by
  intro lines
  induction lines with
  | nil =>
      intro st v h
      exact Or.inr ⟨h, by simp⟩
  | cons l ls ih =>
      intro st v h
      rw [show chkList st (l :: ls) = chkList (chkStep st l) ls from rfl] at h
      rcases ih (chkStep st l) v h with ⟨pre, l0, post, heq, hsv, hnr⟩ | ⟨hst, hnr⟩
      · exact Or.inl ⟨l :: pre, l0, post, by rw [heq, List.cons_append], hsv, hnr⟩
      · cases l with
        | obj o =>
            simp only [chkStep] at hst
            split at hst
            · simp at hst
            · rename_i heqt
              exact Or.inl ⟨[], .obj o, ls, rfl, by simp [stateValueOf, heqt, hst], hnr⟩
            · rename_i hne1 hne2
              refine Or.inr ⟨hst, mem_cons_not_record ?_ hnr⟩
              intro hrec
              simp only [isRecordLine, lineTypeOf] at hrec
              exact hne1 hrec
        | null =>
            exact Or.inr ⟨hst, mem_cons_not_record (by simp [isRecordLine, lineTypeOf]) hnr⟩
        | bool b =>
            exact Or.inr ⟨hst, mem_cons_not_record (by simp [isRecordLine, lineTypeOf]) hnr⟩
        | int n =>
            exact Or.inr ⟨hst, mem_cons_not_record (by simp [isRecordLine, lineTypeOf]) hnr⟩
        | str s2 =>
            exact Or.inr ⟨hst, mem_cons_not_record (by simp [isRecordLine, lineTypeOf]) hnr⟩
        | arr xs =>
            exact Or.inr ⟨hst, mem_cons_not_record (by simp [isRecordLine, lineTypeOf]) hnr⟩

theorem runLines_append_ok (config : Config) (now : PyTimestamp) :
    ∀ (xs ys : List JVal) (s s1 : LoopState),
      runLines config now s xs = (s1, none) →
      runLines config now s (xs ++ ys) = runLines config now s1 ys := by
  intro xs
  induction xs with
  | nil =>
      intro ys s s1 h
      simp only [runLines] at h
      injection h with h1 _
      rw [List.nil_append, h1]
  | cons l ls ih =>
      intro ys s s1 h
      simp only [runLines] at h
      split at h
      · rename_i s3 hstep
        rw [List.cons_append]
        simp only [runLines, hstep]
        exact ih ys s3 s1 h
      · simp at h

/-! Claim theorems. -/

/-- C2: for every input whose run completes and returns a checkpoint
value, that value is carried by a STATE line of the input that no later
RECORD line follows - processing a record clears the tracked checkpoint,
so the returned checkpoint never corresponds to buffered-but-undelivered
data. -/
theorem c2_checkpoint_never_followed_by_record
    (config : Config) (now : PyTimestamp) (lines : List JVal) (v : JVal)
    (h : persist_lines config now lines = .ok (some v)) :
    ∃ pre l post, lines = pre ++ l :: post ∧ stateValueOf l = some v ∧
      ∀ l2 ∈ post, ¬ isRecordLine l2 := by
  unfold persist_lines at h
  split at h
  · simp at h
  · rename_i s hpa
    injection h with hs
    unfold processAll at hpa
    split at hpa
    · simp at hpa
    · rename_i s1 hrun
      have hs1 : s.state = s1.state := by
        split at hpa
        · split at hpa
          · simp at hpa
          · injection hpa with h1 _
            rw [← h1]
        · injection hpa with h1 _
          rw [← h1]
      have hchk := runLines_state_chkList config now lines initState s1 hrun
      have hfinal : chkList none lines = some v := by
        rw [show chkList none lines = chkList initState.state lines from rfl, ← hchk, ← hs1, hs]
      rcases chkList_some lines none v hfinal with hleft | ⟨hnone, _⟩
      · exact hleft
      · simp at hnone

/-- C2 witness: a run consisting of one STATE line returns its value, and
the theorem locates that line with no RECORD line after it. -/
theorem c2_checkpoint_witness :
    ∃ pre l post, [stateLine (.int 7)] = pre ++ l :: post ∧
      stateValueOf l = some (.int 7) ∧ ∀ l2 ∈ post, ¬ isRecordLine l2 :=
  c2_checkpoint_never_followed_by_record cfgDefault tsW [stateLine (.int 7)] (.int 7) rfl

/-- C8: whenever a successfully processed prefix leaves a registry with
no schema for a stream, a RECORD line for that stream halts the run with
the unknown-stream error before the record is buffered: the loop state
at the halt is exactly the pre-line state (same buffer, registries,
checkpoint and delivered batches, so no flush occurred for that record),
and the run emits no checkpoint at the output boundary. -/
theorem c8_unknown_stream_halts (config : Config) (now : PyTimestamp)
    (pre rest : List JVal) (s : LoopState) (d : List (String × JVal)) (sv : JVal)
    (hpre : runLines config now initState pre = (s, none))
    (htype : lookupStr d "type" = some (.str "RECORD"))
    (hstream : lookupStr d "stream" = some sv)
    (hunknown : lookupJ s.schemas sv = none) :
    runLines config now initState (pre ++ JVal.obj d :: rest) = (s, some .unknownStream) ∧
    main_emitted config now (pre ++ JVal.obj d :: rest) = none := by
  have hrec : handle_record d s.schemas config now = .error .unknownStream := by
    simp [handle_record, hstream, hunknown]
  have hstep : step config now s (JVal.obj d) = (s, some .unknownStream) := by
    simp [step, htype, hrec]
  have hall : runLines config now initState (pre ++ JVal.obj d :: rest)
      = (s, some .unknownStream) := by
    rw [runLines_append_ok config now pre (JVal.obj d :: rest) initState s hpre]
    simp only [runLines, hstep]
  refine ⟨hall, ?_⟩
  unfold main_emitted persist_lines processAll
  rw [hall]

/-- C8 witness: a single RECORD line for the unregistered stream orders,
processed from the initial state. -/
theorem c8_unknown_stream_witness :
    runLines cfgDefault tsW initState ([] ++ ordersRecordLine :: []) =
      (initState, some .unknownStream) ∧
    main_emitted cfgDefault tsW ([] ++ ordersRecordLine :: []) = none :=
  c8_unknown_stream_halts cfgDefault tsW [] [] initState
    [("type", .str "RECORD"), ("stream", .str "orders"), ("record", .obj [])]
    (.str "orders") rfl rfl rfl rfl

/-- C4: for every record message whose record carries none of the seven
_sdc bookkeeping keys, enrichment appends exactly the seven bookkeeping
entries - the batching stamp, the carried deletion stamp, the extraction
stamp, the key properties of the schema message argument, the received
stamp, the millisecond sequence and the version token - after the
original fields, and stripping the enriched record restores exactly the
original record. -/
theorem c4_enrich_strip_roundtrip (o sm r : List (String × JVal)) (ts : PyTimestamp)
    (ho : lookupStr o "record" = some (.obj r))
    (hd : ∀ k ∈ sdcKeyList, lookupStr r k = none) :
    add_metadata_values_to_record o sm ts =
      .ok (r ++ [("_sdc_batched_at", .str ts.isoUtc),
                 ("_sdc_deleted_at", (lookupStr r "_sdc_deleted_at").getD .null),
                 ("_sdc_extracted_at", (lookupStr o "time_extracted").getD .null),
                 ("_sdc_primary_key", (lookupStr sm "key_properties").getD .null),
                 ("_sdc_received_at", .str ts.isoUtc),
                 ("_sdc_sequence", .int ts.epochMs),
                 ("_sdc_table_version", (lookupStr o "version").getD .null)]) ∧
    remove_metadata_values_from_record (setKey o "record"
      (.obj (r ++ [("_sdc_batched_at", .str ts.isoUtc),
                   ("_sdc_deleted_at", (lookupStr r "_sdc_deleted_at").getD .null),
                   ("_sdc_extracted_at", (lookupStr o "time_extracted").getD .null),
                   ("_sdc_primary_key", (lookupStr sm "key_properties").getD .null),
                   ("_sdc_received_at", .str ts.isoUtc),
                   ("_sdc_sequence", .int ts.epochMs),
                   ("_sdc_table_version", (lookupStr o "version").getD .null)]))) = .ok r := by
  have hmap : [("_sdc_batched_at", JVal.str ts.isoUtc),
               ("_sdc_deleted_at", (lookupStr r "_sdc_deleted_at").getD .null),
               ("_sdc_extracted_at", (lookupStr o "time_extracted").getD .null),
               ("_sdc_primary_key", (lookupStr sm "key_properties").getD .null),
               ("_sdc_received_at", JVal.str ts.isoUtc),
               ("_sdc_sequence", JVal.int ts.epochMs),
               ("_sdc_table_version", (lookupStr o "version").getD .null)].map Prod.fst
      = sdcKeyList := rfl
  have hnd7 : ([("_sdc_batched_at", JVal.str ts.isoUtc),
               ("_sdc_deleted_at", (lookupStr r "_sdc_deleted_at").getD .null),
               ("_sdc_extracted_at", (lookupStr o "time_extracted").getD .null),
               ("_sdc_primary_key", (lookupStr sm "key_properties").getD .null),
               ("_sdc_received_at", JVal.str ts.isoUtc),
               ("_sdc_sequence", JVal.int ts.epochMs),
               ("_sdc_table_version", (lookupStr o "version").getD .null)].map Prod.fst).Nodup := by
    rw [hmap]
    decide
  have hP : ∀ p ∈ [("_sdc_batched_at", JVal.str ts.isoUtc),
                   ("_sdc_deleted_at", (lookupStr r "_sdc_deleted_at").getD .null),
                   ("_sdc_extracted_at", (lookupStr o "time_extracted").getD .null),
                   ("_sdc_primary_key", (lookupStr sm "key_properties").getD .null),
                   ("_sdc_received_at", JVal.str ts.isoUtc),
                   ("_sdc_sequence", JVal.int ts.epochMs),
                   ("_sdc_table_version", (lookupStr o "version").getD .null)],
      lookupStr r p.1 = none := by
    intro p hp
    apply hd
    rw [← hmap]
    exact List.mem_map_of_mem Prod.fst hp
  constructor
  · simp only [add_metadata_values_to_record, ho]
    congr 1
    show List.foldl (fun d2 p => setKey d2 p.1 p.2) r
        [("_sdc_batched_at", JVal.str ts.isoUtc),
         ("_sdc_deleted_at", (lookupStr r "_sdc_deleted_at").getD .null),
         ("_sdc_extracted_at", (lookupStr o "time_extracted").getD .null),
         ("_sdc_primary_key", (lookupStr sm "key_properties").getD .null),
         ("_sdc_received_at", JVal.str ts.isoUtc),
         ("_sdc_sequence", JVal.int ts.epochMs),
         ("_sdc_table_version", (lookupStr o "version").getD .null)] = _
    rw [foldl_setKey_append _ r hP hnd7]
  · have hlook : lookupStr (setKey o "record"
        (.obj (r ++ [("_sdc_batched_at", JVal.str ts.isoUtc),
                     ("_sdc_deleted_at", (lookupStr r "_sdc_deleted_at").getD .null),
                     ("_sdc_extracted_at", (lookupStr o "time_extracted").getD .null),
                     ("_sdc_primary_key", (lookupStr sm "key_properties").getD .null),
                     ("_sdc_received_at", JVal.str ts.isoUtc),
                     ("_sdc_sequence", JVal.int ts.epochMs),
                     ("_sdc_table_version", (lookupStr o "version").getD .null)]))) "record"
      = some (.obj (r ++ [("_sdc_batched_at", JVal.str ts.isoUtc),
                     ("_sdc_deleted_at", (lookupStr r "_sdc_deleted_at").getD .null),
                     ("_sdc_extracted_at", (lookupStr o "time_extracted").getD .null),
                     ("_sdc_primary_key", (lookupStr sm "key_properties").getD .null),
                     ("_sdc_received_at", JVal.str ts.isoUtc),
                     ("_sdc_sequence", JVal.int ts.epochMs),
                     ("_sdc_table_version", (lookupStr o "version").getD .null)])) :=
      lookupStr_setKey_self o "record" _
    simp only [remove_metadata_values_from_record, hlook]
    congr 1
    rw [foldl_popKey_append sdcKeyList r _ hd]
    rw [show sdcKeyList.foldl (fun d2 k => popKey d2 k)
          [("_sdc_batched_at", JVal.str ts.isoUtc),
           ("_sdc_deleted_at", (lookupStr r "_sdc_deleted_at").getD .null),
           ("_sdc_extracted_at", (lookupStr o "time_extracted").getD .null),
           ("_sdc_primary_key", (lookupStr sm "key_properties").getD .null),
           ("_sdc_received_at", JVal.str ts.isoUtc),
           ("_sdc_sequence", JVal.int ts.epochMs),
           ("_sdc_table_version", (lookupStr o "version").getD .null)] = [] from rfl,
        List.append_nil]

/-- C5: with the add-metadata-columns flag set, registering a schema
message stores for its stream a schema whose property set includes the
seven _sdc metadata columns, and a validator built from that same
augmented schema: the in-place mutation of the message makes the
apparent overwrite with the raw input schema store the augmented one. -/
theorem c5_schema_registration_augmented
    (o sch props : List (String × JVal)) (kp : JVal) (s : String)
    (schemas : List (JVal × JVal)) (validators : List (JVal × Draft4Validator))
    (key_properties : List (JVal × JVal)) (config : Config)
    (hflag : config.add_metadata_columns = true)
    (hstream : lookupStr o "stream" = some (.str s))
    (hsch : lookupStr o "schema" = some (.obj sch))
    (hprops : lookupStr sch "properties" = some (.obj props))
    (hkp : lookupStr o "key_properties" = some kp) :
    (handle_schema o schemas validators key_properties config).2 = none ∧
    lookupJ (handle_schema o schemas validators key_properties config).1.1 (.str s)
      = some (.obj (setKey sch "properties"
          (.obj (sdcColumnSchemas.foldl (fun d p => setKey d p.1 p.2) props)))) ∧
    lookupJ (handle_schema o schemas validators key_properties config).1.2.1 (.str s)
      = some ⟨.obj (setKey sch "properties"
          (.obj (sdcColumnSchemas.foldl (fun d p => setKey d p.1 p.2) props)))⟩ ∧
    ∀ p ∈ sdcColumnSchemas,
      lookupStr (sdcColumnSchemas.foldl (fun d q => setKey d q.1 q.2) props) p.1
        = some p.2 := by
  have hadd : add_metadata_columns_to_schema o = .ok (setKey o "schema"
      (.obj (setKey sch "properties"
        (.obj (sdcColumnSchemas.foldl (fun d p => setKey d p.1 p.2) props))))) := by
    simp only [add_metadata_columns_to_schema, hsch, hprops]
  have ho2sch : lookupStr (setKey o "schema" (.obj (setKey sch "properties"
      (.obj (sdcColumnSchemas.foldl (fun d p => setKey d p.1 p.2) props))))) "schema"
      = some (.obj (setKey sch "properties"
        (.obj (sdcColumnSchemas.foldl (fun d p => setKey d p.1 p.2) props)))) :=
    lookupStr_setKey_self o "schema" _
  have ho2kp : lookupStr (setKey o "schema" (.obj (setKey sch "properties"
      (.obj (sdcColumnSchemas.foldl (fun d p => setKey d p.1 p.2) props))))) "key_properties"
      = some kp := by
    rw [lookupStr_setKey_ne o "key_properties" "schema" _ (by decide)]
    exact hkp
  refine ⟨?_, ?_, ?_, ?_⟩
  · simp [handle_schema, hstream, hflag, hadd, ho2sch, ho2kp]
  · simp only [handle_schema, hstream, hflag, if_true, hadd, ho2sch, ho2kp]
    exact lookupJ_setKeyJ_self _ _ _ (jeq_str_self s)
  · simp only [handle_schema, hstream, hflag, if_true, hadd, ho2sch, ho2kp]
    exact lookupJ_setKeyJ_self _ _ _ (jeq_str_self s)
  · intro p hp
    obtain ⟨p1, p2⟩ := p
    exact lookupStr_foldl_setKey_mem _ props p1 p2 (by decide) hp

/-- C5 witness: the registration evaluated at the users schema message
with metadata columns enabled, starting from empty registries. -/
theorem c5_schema_witness :
    (handle_schema c5Message [] [] [] cfgMeta).2 = none ∧
    lookupJ (handle_schema c5Message [] [] [] cfgMeta).1.1 (.str "users")
      = some (.obj (setKey c5SchemaDict "properties"
          (.obj (sdcColumnSchemas.foldl (fun d p => setKey d p.1 p.2) c5PropsDict)))) ∧
    lookupJ (handle_schema c5Message [] [] [] cfgMeta).1.2.1 (.str "users")
      = some ⟨.obj (setKey c5SchemaDict "properties"
          (.obj (sdcColumnSchemas.foldl (fun d p => setKey d p.1 p.2) c5PropsDict)))⟩ ∧
    ∀ p ∈ sdcColumnSchemas,
      lookupStr (sdcColumnSchemas.foldl (fun d q => setKey d q.1 q.2) c5PropsDict) p.1
        = some p.2 :=
  c5_schema_registration_augmented c5Message c5SchemaDict c5PropsDict
    (.arr [.str "id"]) "users" [] [] [] cfgMeta rfl rfl rfl rfl rfl

/-- C9: registering a schema message that lacks the key_properties field
raises the missing-key-properties error only after the schema and its
validator were already stored for the stream, while the key properties
registry is left unchanged - registration is not atomic on this error. -/
theorem c9_partial_registration_on_missing_key_properties
    (o sch props : List (String × JVal)) (s : String)
    (schemas : List (JVal × JVal)) (validators : List (JVal × Draft4Validator))
    (key_properties : List (JVal × JVal)) (config : Config)
    (hstream : lookupStr o "stream" = some (.str s))
    (hsch : lookupStr o "schema" = some (.obj sch))
    (hprops : lookupStr sch "properties" = some (.obj props))
    (hnokp : lookupStr o "key_properties" = none) :
    (handle_schema o schemas validators key_properties config).2
      = some .missingKeyProperties ∧
    (∃ storedSch,
      lookupJ (handle_schema o schemas validators key_properties config).1.1 (.str s)
        = some storedSch ∧
      lookupJ (handle_schema o schemas validators key_properties config).1.2.1 (.str s)
        = some ⟨storedSch⟩) ∧
    (handle_schema o schemas validators key_properties config).1.2.2
      = key_properties := by
  cases hflag : config.add_metadata_columns with
  | true =>
      have hadd : add_metadata_columns_to_schema o = .ok (setKey o "schema"
          (.obj (setKey sch "properties"
            (.obj (sdcColumnSchemas.foldl (fun d p => setKey d p.1 p.2) props))))) := by
        simp only [add_metadata_columns_to_schema, hsch, hprops]
      have ho2sch : lookupStr (setKey o "schema" (.obj (setKey sch "properties"
          (.obj (sdcColumnSchemas.foldl (fun d p => setKey d p.1 p.2) props))))) "schema"
          = some (.obj (setKey sch "properties"
            (.obj (sdcColumnSchemas.foldl (fun d p => setKey d p.1 p.2) props)))) :=
        lookupStr_setKey_self o "schema" _
      have ho2kp : lookupStr (setKey o "schema" (.obj (setKey sch "properties"
          (.obj (sdcColumnSchemas.foldl (fun d p => setKey d p.1 p.2) props))))) "key_properties"
          = none := by
        rw [lookupStr_setKey_ne o "key_properties" "schema" _ (by decide)]
        exact hnokp
      refine ⟨?_, ⟨.obj (setKey sch "properties"
          (.obj (sdcColumnSchemas.foldl (fun d p => setKey d p.1 p.2) props))), ?_, ?_⟩, ?_⟩
      · simp [handle_schema, hstream, hflag, hadd, ho2sch, ho2kp]
      · simp only [handle_schema, hstream, hflag, if_true, hadd, ho2sch, ho2kp]
        exact lookupJ_setKeyJ_self _ _ _ (jeq_str_self s)
      · simp only [handle_schema, hstream, hflag, if_true, hadd, ho2sch, ho2kp]
        exact lookupJ_setKeyJ_self _ _ _ (jeq_str_self s)
      · simp [handle_schema, hstream, hflag, hadd, ho2sch, ho2kp]
  | false =>
      refine ⟨?_, ⟨.obj sch, ?_, ?_⟩, ?_⟩
      · simp [handle_schema, hstream, hflag, hsch, hnokp, float_to_decimal]
      · simp only [handle_schema, hstream, hflag, Bool.false_eq_true, if_false,
          hsch, hnokp, float_to_decimal]
        exact lookupJ_setKeyJ_self _ _ _ (jeq_str_self s)
      · simp only [handle_schema, hstream, hflag, Bool.false_eq_true, if_false,
          hsch, hnokp, float_to_decimal]
        exact lookupJ_setKeyJ_self _ _ _ (jeq_str_self s)
      · simp [handle_schema, hstream, hflag, hsch, hnokp, float_to_decimal]

/-- C9 witness: registering a schema message without key_properties, with
empty registries and the default configuration. -/
theorem c9_partial_registration_witness :
    (handle_schema c9Message [] [] [] cfgDefault).2 = some .missingKeyProperties ∧
    (∃ storedSch,
      lookupJ (handle_schema c9Message [] [] [] cfgDefault).1.1 (.str "users")
        = some storedSch ∧
      lookupJ (handle_schema c9Message [] [] [] cfgDefault).1.2.1 (.str "users")
        = some ⟨storedSch⟩) ∧
    (handle_schema c9Message [] [] [] cfgDefault).1.2.2 = [] :=
  c9_partial_registration_on_missing_key_properties c9Message c5SchemaDict c5PropsDict
    "users" [] [] [] cfgDefault rfl rfl rfl rfl

/-- C4 witness: the round trip evaluated at a concrete record message
with the two plain fields id and name. -/
theorem c4_roundtrip_witness :
    add_metadata_values_to_record c4Message [] tsW =
      .ok (c4Record ++ [("_sdc_batched_at", .str tsW.isoUtc),
                 ("_sdc_deleted_at", (lookupStr c4Record "_sdc_deleted_at").getD .null),
                 ("_sdc_extracted_at", (lookupStr c4Message "time_extracted").getD .null),
                 ("_sdc_primary_key", (lookupStr [] "key_properties").getD .null),
                 ("_sdc_received_at", .str tsW.isoUtc),
                 ("_sdc_sequence", .int tsW.epochMs),
                 ("_sdc_table_version", (lookupStr c4Message "version").getD .null)]) ∧
    remove_metadata_values_from_record (setKey c4Message "record"
      (.obj (c4Record ++ [("_sdc_batched_at", .str tsW.isoUtc),
                   ("_sdc_deleted_at", (lookupStr c4Record "_sdc_deleted_at").getD .null),
                   ("_sdc_extracted_at", (lookupStr c4Message "time_extracted").getD .null),
                   ("_sdc_primary_key", (lookupStr [] "key_properties").getD .null),
                   ("_sdc_received_at", .str tsW.isoUtc),
                   ("_sdc_sequence", .int tsW.epochMs),
                   ("_sdc_table_version", (lookupStr c4Message "version").getD .null)]))) = .ok c4Record :=
  c4_enrich_strip_roundtrip c4Message [] c4Record tsW rfl
    (by intro k hk; fin_cases hk <;> rfl)

/-- C1, counterexample: on the input SCHEMA, STATE, RECORD with no flush
threshold crossed during the loop, the forced end-of-stream flush does
deliver the buffered record, but persist_lines returns none, not the
STATE value - the claim that the checkpoint value is emitted at the
output boundary is false on this input. -/
theorem c1_checkpoint_not_returned_cex :
    persist_lines cfgDefault tsW [usersSchemaLine, stateLine (.str "s1"), userRecordLine 1]
      = .ok none ∧
    (processAll cfgDefault tsW [usersSchemaLine, stateLine (.str "s1"), userRecordLine 1]).1.delivered
      = [[bufferedUserRecord 1]] ∧
    persist_lines cfgDefault tsW [usersSchemaLine, stateLine (.str "s1"), userRecordLine 1]
      ≠ .ok (some (.str "s1")) := by
  refine ⟨rfl, rfl, fun h => ?_⟩
  rw [show persist_lines cfgDefault tsW
        [usersSchemaLine, stateLine (.str "s1"), userRecordLine 1] = .ok none from rfl] at h
  exact Option.noConfusion (Except.ok.inj h)

/-- C1, amended: for an input consisting of a SCHEMA message, a STATE
message, then one RECORD message for the registered stream, followed by
end-of-input, where no flush threshold is crossed during the loop, the
forced end-of-stream flush delivers the buffered record, but
persist_lines returns none rather than the STATE value: processing the
RECORD message cleared the tracked checkpoint and no flush restores it. -/
theorem c1_forced_flush_returns_none (v : JVal) :
    (processAll cfgDefault tsW [usersSchemaLine, stateLine v, userRecordLine 1]).1.delivered
      = [[bufferedUserRecord 1]] ∧
    persist_lines cfgDefault tsW [usersSchemaLine, stateLine v, userRecordLine 1] = .ok none :=
  ⟨rfl, rfl⟩

/-- C6, the code evaluated at the failing input: with metadata columns
enabled, a SCHEMA message for users declaring key_properties id followed
by a RECORD message leaves a buffered record whose _sdc_primary_key is
None, although the registry stores the declared key properties - because
handle_record passes the empty dict as the schema message to
add_metadata_values_to_record. -/
theorem c6_primary_key_is_null :
    (runLines cfgMeta tsW initState [usersSchemaLine, userRecordLine 1]).1.records =
      [.obj [("id", .int 1),
             ("_sdc_batched_at", .str "2024-01-01T00:00:00"),
             ("_sdc_deleted_at", .null),
             ("_sdc_extracted_at", .null),
             ("_sdc_primary_key", .null),
             ("_sdc_received_at", .str "2024-01-01T00:00:00"),
             ("_sdc_sequence", .int 1704067200000),
             ("_sdc_table_version", .null),
             ("stream", .str "users")]] ∧
    lookupJ (runLines cfgMeta tsW initState [usersSchemaLine, userRecordLine 1]).1.key_properties
      (.str "users") = some (.arr [.str "id"]) :=
  ⟨rfl, rfl⟩

/-- C7, counterexample: the size measure the flush predicate uses
evaluates to 2 on the empty buffer (the two bracket characters of the
stringified empty list), not to 0 as the claim states. -/
theorem c7_empty_estimate_cex :
    batch_size_estimate [] = 2 ∧ batch_size_estimate [] ≠ 0 :=
  ⟨rfl, by decide⟩

/-- C7, amended: the size estimate used by the flush predicate evaluates
to 2 on the empty buffer - below the fixed +3 allowance of the threshold
comparison, so an empty buffer never triggers a size flush - and is
monotonically non-decreasing as records are appended. -/
theorem c7_estimate_amended :
    batch_size_estimate [] = 2 ∧
    ∀ (b : List JVal) (r : JVal), batch_size_estimate b ≤ batch_size_estimate (b ++ [r]) := by
  refine ⟨rfl, ?_⟩
  intro b r
  by_cases hb : b = []
  · subst hb
    have e2 : batch_size_estimate [r] = 2 + (pyRepr r).length := by
      show ("[" ++ pyReprElems [r] ++ "]").length = 2 + (pyRepr r).length
      rw [show pyReprElems [r] = pyRepr r from rfl]
      simp only [String.length_append]
      have hl : ("[" : String).length = 1 := rfl
      have hr : ("]" : String).length = 1 := rfl
      omega
    rw [show batch_size_estimate ([] : List JVal) = 2 from rfl, List.nil_append, e2]
    omega
  · unfold batch_size_estimate pyStrList
    simp only [String.length_append]
    have h := length_pyReprElems_append b r hb
    omega

/-- C3, counterexample: with configured max size 27 (and the default max
record count 10), a schema line followed by one record line leaves a
buffer of one record whose size estimate 30 strictly exceeds 27, yet no
flush is triggered during the loop - the code only flushes above
data_chunks + 3, so the claim that a flush is triggered exactly when the
estimate exceeds the configured max size is false on this input. -/
theorem c3_flush_threshold_cex :
    (runLines cfg27 tsW initState [usersSchemaLine, userRecordLine 5]).2 = none ∧
    (runLines cfg27 tsW initState [usersSchemaLine, userRecordLine 5]).1.delivered = [] ∧
    (runLines cfg27 tsW initState [usersSchemaLine, userRecordLine 5]).1.records.length = 1 ∧
    batch_size_estimate
      (runLines cfg27 tsW initState [usersSchemaLine, userRecordLine 5]).1.records = 30 ∧
    cfg27.data_chunks = some 27 :=
  ⟨rfl, rfl, rfl, rfl, rfl⟩

/-- C3, amended: a flush is triggered exactly when the pending record
count strictly exceeds the configured max record count (default 10) or
the size estimate strictly exceeds the configured max size (default
1000) plus the fixed allowance 3, and never earlier; in particular, with
max record count 10, a schema followed by 11 records produces exactly
one flush, occurring after the 11th record is appended and none earlier,
and the dispatcher receives the batch of all 11 records. -/
theorem c3_flush_condition_amended :
    (∀ (config : Config) (s : LoopState),
      ¬((s.records.length : Int) > config.record_chunks.getD DEFAULT_RECORD_CHUNKS ∨
        (batch_size_estimate s.records : Int) > config.data_chunks.getD DEFAULT_DATA_CHUNKS + 3) →
      flushCheck config s = (s, none)) ∧
    (∀ (config : Config) (s : LoopState),
      ((s.records.length : Int) > config.record_chunks.getD DEFAULT_RECORD_CHUNKS ∨
        (batch_size_estimate s.records : Int) > config.data_chunks.getD DEFAULT_DATA_CHUNKS + 3) →
      deliver_records config s.records = .ok () →
      flushCheck config s =
        ({ s with records := [], delivered := s.delivered ++ [s.records] }, none)) ∧
    (runLines cfg10 tsW initState
        (usersSchemaLine :: (List.range 10).map (fun i => userRecordLine (Int.ofNat i)))).1.delivered
      = [] ∧
    (runLines cfg10 tsW initState
        (usersSchemaLine :: (List.range 10).map (fun i => userRecordLine (Int.ofNat i)))).1.records.length
      = 10 ∧
    runLines cfg10 tsW initState
        (usersSchemaLine :: (List.range 11).map (fun i => userRecordLine (Int.ofNat i))) =
      ({ records := [], state := none,
         schemas := [(.str "users",
           .obj [("properties", .obj [("id", .obj [("type", .str "integer")])])])],
         validators := [(.str "users",
           ⟨.obj [("properties", .obj [("id", .obj [("type", .str "integer")])])]⟩)],
         key_properties := [(.str "users", .arr [.str "id"])],
         delivered := [(List.range 11).map (fun i => bufferedUserRecord (Int.ofNat i))] }, none) := by
  refine ⟨?_, ?_, rfl, rfl, rfl⟩
  · intro config s h
    push_neg at h
    obtain ⟨h1, h2⟩ := h
    have hcond : ¬((decide ((s.records.length : Int) > config.record_chunks.getD DEFAULT_RECORD_CHUNKS) ||
        decide (((pyStrList s.records).length : Int) > config.data_chunks.getD DEFAULT_DATA_CHUNKS + 3)) = true) := by
      simp only [Bool.or_eq_true, decide_eq_true_eq, not_or]
      exact ⟨not_lt.mpr h1, not_lt.mpr h2⟩
    simp only [flushCheck]
    rw [if_neg hcond]
  · intro config s h hd
    have hcond : (decide ((s.records.length : Int) > config.record_chunks.getD DEFAULT_RECORD_CHUNKS) ||
        decide (((pyStrList s.records).length : Int) > config.data_chunks.getD DEFAULT_DATA_CHUNKS + 3)) = true := by
      simp only [Bool.or_eq_true, decide_eq_true_eq]
      exact h
    simp only [flushCheck]
    rw [if_pos hcond, hd]

theorem flushCheck_allStamped (config : Config) (ts : PyTimestamp) (s : LoopState)
    (h : allStamped ts s) : allStamped ts (flushCheck config s).1 := by
  rcases flushCheck_fst_cases config s with hc | hc
  · rw [hc]
    exact h
  · rw [hc]
    refine ⟨fun r hr => absurd hr (List.not_mem_nil r), fun b hb r hr => ?_⟩
    rcases List.mem_append.mp hb with h1 | h1
    · exact h.2 b h1 r hr
    · rw [List.mem_singleton.mp h1] at hr
      exact h.1 r hr

theorem handle_record_stamped (o : List (String × JVal)) (schemas : List (JVal × JVal))
    (config : Config) (ts : PyTimestamp) (rec : JVal)
    (hmeta : config.add_metadata_columns = true)
    (h : handle_record o schemas config ts = .ok rec) : stamped ts rec := by
  unfold handle_record at h
  split at h
  · simp at h
  · rename_i sv heqsv
    split at h
    · simp at h
    · split at h
      · simp at h
      · rw [show (if config.add_metadata_columns then add_metadata_values_to_record o [] ts
            else remove_metadata_values_from_record o) = add_metadata_values_to_record o [] ts
            from by rw [hmeta]; rfl] at h
        split at h
        · simp at h
        · rename_i r2 hadd
          injection h with hrec
          unfold add_metadata_values_to_record at hadd
          split at hadd
          · rename_i r heqr
            injection hadd with hr2
            refine ⟨setKey r2 "stream" sv, hrec.symm, ?_, ?_, ?_⟩
            · rw [lookupStr_setKey_ne _ "_sdc_batched_at" "stream" _ (by decide), ← hr2,
                lookupStr_setKey_ne _ "_sdc_batched_at" "_sdc_table_version" _ (by decide),
                lookupStr_setKey_ne _ "_sdc_batched_at" "_sdc_sequence" _ (by decide),
                lookupStr_setKey_ne _ "_sdc_batched_at" "_sdc_received_at" _ (by decide),
                lookupStr_setKey_ne _ "_sdc_batched_at" "_sdc_primary_key" _ (by decide),
                lookupStr_setKey_ne _ "_sdc_batched_at" "_sdc_extracted_at" _ (by decide),
                lookupStr_setKey_ne _ "_sdc_batched_at" "_sdc_deleted_at" _ (by decide),
                lookupStr_setKey_self]
            · rw [lookupStr_setKey_ne _ "_sdc_received_at" "stream" _ (by decide), ← hr2,
                lookupStr_setKey_ne _ "_sdc_received_at" "_sdc_table_version" _ (by decide),
                lookupStr_setKey_ne _ "_sdc_received_at" "_sdc_sequence" _ (by decide),
                lookupStr_setKey_self]
            · rw [lookupStr_setKey_ne _ "_sdc_sequence" "stream" _ (by decide), ← hr2,
                lookupStr_setKey_ne _ "_sdc_sequence" "_sdc_table_version" _ (by decide),
                lookupStr_setKey_self]
          · simp at hadd
          · simp at hadd

theorem step_allStamped (config : Config) (ts : PyTimestamp) (s : LoopState) (l : JVal)
    (hmeta : config.add_metadata_columns = true) (h : allStamped ts s) :
    allStamped ts (step config ts s l).1 := by
  unfold step
  split
  · rename_i o
    split
    · exact h
    · -- RECORD
      split
      · exact h
      · rename_i rec hrec
        apply flushCheck_allStamped
        refine ⟨fun r hr => ?_, fun b hb r hr => h.2 b hb r hr⟩
        rcases List.mem_append.mp hr with h1 | h1
        · exact h.1 r h1
        · rw [List.mem_singleton.mp h1]
          exact handle_record_stamped o s.schemas config ts rec hmeta hrec
    · -- STATE
      split
      · exact h
      · exact flushCheck_allStamped config ts _ ⟨h.1, h.2⟩
    · -- SCHEMA
      split
      · exact ⟨h.1, h.2⟩
      · exact flushCheck_allStamped config ts _ ⟨h.1, h.2⟩
    · exact h
  · exact h

theorem runLines_allStamped (config : Config) (ts : PyTimestamp) :
    ∀ (lines : List JVal) (s : LoopState), config.add_metadata_columns = true →
      allStamped ts s → allStamped ts (runLines config ts s lines).1 := by
  intro lines
  induction lines with
  | nil =>
      intro s _ h
      exact h
  | cons l ls ih =>
      intro s hm h
      show allStamped ts (match step config ts s l with
        | (s2, none) => runLines config ts s2 ls
        | (s2, some e) => (s2, some e)).1
      rcases hstep : step config ts s l with ⟨s2, e⟩
      have h2 : allStamped ts s2 := by
        have hs := step_allStamped config ts s l hm h
        rw [hstep] at hs
        exact hs
      cases e with
      | none => exact ih s2 hm h2
      | some e => exact h2

/-- C10: the enrichment timestamp is fixed once per run - it is computed
before the loop and passed unchanged to every enrichment - so with
metadata columns enabled, every record ever buffered and every record of
every delivered batch carries the same batched-at stamp, the same
received-at stamp and the same sequence number, those of the run
timestamp, regardless of where in the input the record arrived. -/
theorem c10_uniform_run_timestamp (config : Config) (ts : PyTimestamp) (lines : List JVal)
    (hmeta : config.add_metadata_columns = true) :
    allStamped ts (processAll config ts lines).1 := by
  have hrun := runLines_allStamped config ts lines initState hmeta
    ⟨fun r hr => absurd hr (List.not_mem_nil r), fun b hb => absurd hb (List.not_mem_nil b)⟩
  unfold processAll
  rcases hr : runLines config ts initState lines with ⟨s1, e⟩
  rw [hr] at hrun
  cases e with
  | some e => exact hrun
  | none =>
      show allStamped ts (if s1.records.length > 0 then
          match deliver_records config s1.records with
          | .error e => (s1, some e)
          | .ok _ => ({ s1 with delivered := s1.delivered ++ [s1.records] }, none)
        else (s1, none)).1
      split
      · split
        · exact hrun
        · refine ⟨fun r hr2 => hrun.1 r hr2, fun b hb r hr2 => ?_⟩
          rcases List.mem_append.mp hb with h1 | h1
          · exact hrun.2 b h1 r hr2
          · rw [List.mem_singleton.mp h1] at hr2
            exact hrun.1 r hr2
      · exact hrun

/-- C10 witness: a metadata-enabled run over a schema line and a record
line; every buffered and delivered record carries the run stamps. -/
theorem c10_uniform_timestamp_witness :
    allStamped tsW (processAll cfgMeta tsW [usersSchemaLine, userRecordLine 1]).1 :=
  c10_uniform_run_timestamp cfgMeta tsW [usersSchemaLine, userRecordLine 1] rfl

end TargetKinesis
